import Mathlib

/-!
A verification development for the `Persona` account-lifecycle library
(`src/Persona.js`).  The class orchestrates account registration, credential
verification, email verification and password recovery on top of an external
relational store, validation engine, hasher and event bus.

Modelling conventions (shallow embedding):

* Account attributes and request payloads are association lists
  `List (String × String)`; an absent key models the JavaScript `undefined`.
* The token value supply `this._encrypter.encrypt(randtoken.generate(16))` is
  modelled as a counter-indexed supply of fresh `Nat` values held in the
  database state; store-wide uniqueness of token values (an invariant the
  store provides) is the `WF` predicate below.
* Timestamps are integers counted in hours; `moment().subtract(24, 'hours')`
  becomes `now - 24`.  The configured `dateFormat` only renders timestamps
  for a monotone string comparison, so the rendering is dropped.
* The external Indicative validator is modelled from the spec (§6, §8): rule
  strings such as `required|email|unique:users,email` become structured
  `VRule` lists, and `validateAll` checks every field in rule-declaration
  order, collecting structured errors.  Non-`required` rules are skipped for
  absent fields.
* The configuration is the default-merged configuration in which
  `validationMessages` is unset, so `getMessages()` is empty and
  `_makeCustomMessage` always returns its default message.
* The external hasher `Hash.verify(plain, hash)` is passed in as a boolean
  relation `hver`.
-/

namespace Persona

/-- Attribute maps: JavaScript objects with string values.  An absent key is
the JavaScript `undefined`. -/
abbrev Attrs := List (String × String)

/-- Read a field of an object (`payload[key]`); `none` is `undefined`. -/
def pget (m : Attrs) (k : String) : Option String :=
  (m.find? (fun kv => kv.1 == k)).map (fun kv => kv.2)

/-- Write a field of an object (`payload[key] = v`). -/
def pset (m : Attrs) (k v : String) : Attrs :=
  if m.any (fun kv => kv.1 == k) then
    m.map (fun kv => if kv.1 == k then (k, v) else kv)
  else
    m ++ [(k, v)]

/-- Delete a field of an object (`delete payload[key]`). -/
def premove (m : Attrs) (k : String) : Attrs :=
  m.filter (fun kv => kv.1 != k)

/-- Write a possibly-`undefined` value: assigning `undefined` makes the field
read back as `undefined`. -/
def psetOpt (m : Attrs) (k : String) : Option String → Attrs
  | some v => pset m k v
  | none => premove m k

/-- JavaScript truthiness of a string-or-`undefined` value: `undefined` and
the empty string are falsy. -/
def truthy : Option String → Bool
  | some s => s != ""
  | none => false

/-- `user.merge(payload)`: assign every payload field onto the object. -/
def merge (base p : Attrs) : Attrs :=
  p.foldl (fun acc kv => pset acc kv.1 kv.2) base

/-- An account row (`App/Models/User`). -/
structure Account where
  id : Nat
  attrs : Attrs
deriving Repr, DecidableEq

/-- A token row, child of the account `userId`. -/
structure Token where
  userId : Nat
  type : String
  token : Nat
  is_revoked : Bool
  updated_at : Int
deriving Repr, DecidableEq

/-- The relational store, together with the fresh-value supplies for token
values and account primary keys. -/
structure DB where
  users : List Account
  tokens : List Token
  counter : Nat
  userCounter : Nat
deriving Repr, DecidableEq

/-- The merged `persona` configuration (with `validationMessages` unset). -/
structure Config where
  uids : List String
  email : String
  password : String
  table : String
  newAccountState : String
  verifiedAccountState : String
deriving Repr, DecidableEq

/-- The defaults merged in the constructor. -/
def defaultConfig : Config :=
  { uids := ["email"]
    email := "email"
    password := "password"
    table := "users"
    newAccountState := "pending"
    verifiedAccountState := "active" }

/-- `this._oldPasswordField`. -/
def oldPasswordField (c : Config) : String := "old_" ++ c.password

/-- `this._passwordConfirmationField`. -/
def passwordConfirmationField (c : Config) : String := c.password ++ "_confirmation"

/-- A structured validation error `{message, field, validation}`. -/
structure VError where
  message : String
  field : String
  validation : String
deriving Repr, DecidableEq

/-- The errors the library raises. -/
inductive PersonaError where
  | validationFailed (errors : List VError)
  | invalidToken
  | operationNotAllowed (message : String)
deriving Repr, DecidableEq

/-- Events fired on the event bus.  Token values are carried as the modelled
`Nat` supply values. -/
inductive Event where
  | userCreated (user : Account) (token : Nat)
  | emailChanged (user : Account) (oldEmail : Option String) (token : Nat)
  | passwordChanged (user : Account)
  | forgotPassword (user : Account) (token : Nat)
  | passwordRecovered (user : Account)
deriving Repr, DecidableEq

/-- One Indicative rule.  The source encodes a rule list as a string such as
`required|email|unique:users,email,id,4`; the pipe-joined encoding is modelled
as the structured list directly. -/
inductive VRule where
  | required
  | email
  | confirmed
  | unique (table : String) (column : String) (excludeKey : Option (String × String))
deriving Repr, DecidableEq

/-- An ordered rule map: field name to its rules, in declaration order. -/
abbrev Rules := List (String × List VRule)

/-- Object-key assignment for rule maps: replace in place when the key exists
(JavaScript objects keep the original key position), else append. -/
def rset (m : Rules) (k : String) (v : List VRule) : Rules :=
  if m.any (fun kv => kv.1 == k) then
    m.map (fun kv => if kv.1 == k then (k, v) else kv)
  else
    m ++ [(k, v)]

/-- Modelled from the spec: the email-shape check of the external validation
engine (the engine itself is not part of this repository). -/
def isEmailShape (s : String) : Bool := s.data.any (fun ch => ch == '@')

/-- Modelled from the spec: checking one rule of the external validation
engine for one field.  `required` fails on absent or empty values; every
other rule is skipped when the field is absent (§6: the engine returns
structured `{field, validation, message}` errors). -/
def ruleError (db : DB) (payload : Attrs) (field : String) : VRule → Option VError
  | .required =>
      if truthy (pget payload field) then none
      else some ⟨"required validation failed on " ++ field, field, "required"⟩
  | .email =>
      match pget payload field with
      | none => none
      | some v =>
          if isEmailShape v then none
          else some ⟨"email validation failed on " ++ field, field, "email"⟩
  | .confirmed =>
      match pget payload field with
      | none => none
      | some v =>
          if pget payload (field ++ "_confirmation") == some v then none
          else some ⟨"confirmed validation failed on " ++ field, field, "confirmed"⟩
  | .unique _ col excl =>
      match pget payload field with
      | none => none
      | some v =>
          if db.users.any (fun u =>
              pget u.attrs col == some v &&
                (match excl with
                 | none => true
                 | some kv => toString u.id != kv.2)) then
            some ⟨"unique validation failed on " ++ field, field, "unique"⟩
          else none

/-- Modelled from the spec: `Validator.validateAll` checks every field in
rule-declaration order and returns the ordered list of all failures (§8:
"order = field declaration order"). -/
def validateAll (db : DB) (payload : Attrs) (rules : Rules) : List VError :=
  rules.foldr (fun fr acc => fr.2.filterMap (ruleError db payload fr.1) ++ acc) []

/-- The rule list built for one uid field in `registrationRules`. -/
def uidRules (c : Config) (uid : String) : List VRule :=
  let rules := [VRule.required]
  let rules := if uid == c.email then rules ++ [VRule.email] else rules
  rules ++ [VRule.unique c.table uid none]

/-- `registrationRules()`: every uid is required (email-shaped when it is the
email uid) and unique; the accumulator starts with the password rule, so the
password key comes first. -/
def registrationRules (c : Config) : Rules :=
  c.uids.foldl (fun result uid => rset result uid (uidRules c uid))
    [(c.password, [VRule.required, VRule.confirmed])]

/-- `updateEmailRules(userId)`: required, email-shaped, unique among all other
accounts (the account's own primary key is excluded). -/
def updateEmailRules (c : Config) (userId : Nat) : Rules :=
  [(c.email, [VRule.required, VRule.email,
              VRule.unique c.table c.email (some ("id", toString userId))])]

/-- `updatePasswordRules(enforceOldPassword)`. -/
def updatePasswordRules (c : Config) (enforceOldPassword : Bool) : Rules :=
  if enforceOldPassword then
    [(c.password, [VRule.required, VRule.confirmed]), (oldPasswordField c, [VRule.required])]
  else
    [(c.password, [VRule.required, VRule.confirmed])]

/-- `loginRules()`. -/
def loginRules (c : Config) : Rules :=
  [("uid", [VRule.required]), (c.password, [VRule.required])]

/-- The liveness filter of `_addTokenConstraints`: right type, not revoked,
updated within the last 24 hours. -/
def isLive (now : Int) (t : Token) : Bool :=
  !t.is_revoked && decide (now - 24 ≤ t.updated_at)

/-- `generateToken(user, type)`: reuse the first live token of this type for
this user, else create one from the fresh-value supply (stamped `now`). -/
def generateToken (db : DB) (now : Int) (u : Account) (ty : String) : Nat × DB :=
  match db.tokens.find? (fun t => t.userId == u.id && t.type == ty && isLive now t) with
  | some row => (row.token, db)
  | none =>
      (db.counter,
       { db with
          tokens := db.tokens ++ [⟨u.id, ty, db.counter, false, now⟩]
          counter := db.counter + 1 })

/-- `getToken(token, type)`: first live token of this type with this value,
with its owning account eagerly resolved; `none` when no live match exists or
the owner cannot be resolved. -/
def getToken (db : DB) (now : Int) (value : Nat) (ty : String) : Option (Token × Account) :=
  match db.tokens.find? (fun t => t.type == ty && isLive now t && t.token == value) with
  | none => none
  | some row =>
      match db.users.find? (fun u => u.id == row.userId) with
      | none => none
      | some u => some (row, u)

/-- `removeToken(token, type)`: delete every row matching value and type. -/
def removeToken (db : DB) (value : Nat) (ty : String) : DB :=
  { db with tokens := db.tokens.filter (fun t => !(t.token == value && t.type == ty)) }

/-- `user.save()`: write the in-memory account back over its row. -/
def saveUser (db : DB) (u : Account) : DB :=
  { db with users := db.users.map (fun x => if x.id == u.id then u else x) }

/-- `Model.create(payload)`: insert a fresh row built from the payload. -/
def createUser (db : DB) (attrs : Attrs) : Account × DB :=
  let u : Account := ⟨db.userCounter, attrs⟩
  (u, { db with users := db.users ++ [u], userCounter := db.userCounter + 1 })

/-- Set one attribute of an account object. -/
def aset (u : Account) (k v : String) : Account := ⟨u.id, pset u.attrs k v⟩

/-- Set one possibly-`undefined` attribute of an account object. -/
def asetOpt (u : Account) (k : String) (v : Option String) : Account :=
  ⟨u.id, psetOpt u.attrs k v⟩

/-- `verifyPassword(newPassword, oldPassword, field)`: compare via the hasher
and raise a structured `mis_match` error on `field` on failure (default
message, since no custom messages are configured). -/
def verifyPassword (hver : String → String → Bool) (entered stored field : String) :
    Except PersonaError Unit :=
  if hver entered stored then .ok ()
  else .error (.validationFailed [⟨"Invalid password", field, "mis_match"⟩])

/-- `getUserByUids(value)`: first account matching the value on any configured
uid field, else a structured `uid.exists` failure (default message). -/
def getUserByUids (c : Config) (db : DB) (value : String) : Except PersonaError Account :=
  match db.users.find? (fun u => c.uids.any (fun uid => pget u.attrs uid == some value)) with
  | some u => .ok u
  | none => .error (.validationFailed [⟨"Unable to locate user", "uid", "exists"⟩])

/-- `massageRegistrationData(payload)`: drop the confirmation field and stamp
the new-account status. -/
def massageRegistrationData (c : Config) (p : Attrs) : Attrs :=
  pset (premove p (passwordConfirmationField c)) "account_status" c.newAccountState

/-- The outcome of `register`: the created account, the new store state, the
events fired, and (when a prepare callback was supplied) the payload value it
was invoked with. -/
structure RegisterResult where
  user : Account
  db : DB
  events : List Event
  callbackArg : Option Attrs
deriving Repr, DecidableEq

/-- `register(payload, callback)`.  The callback mutates the payload in
place, modelled as an `Attrs → Attrs` transform whose result is persisted. -/
def register (c : Config) (db : DB) (now : Int) (p : Attrs)
    (cb : Option (Attrs → Attrs)) : Except PersonaError RegisterResult :=
  let errs := validateAll db p (registrationRules c)
  if errs.isEmpty then
    let p1 := massageRegistrationData c p
    let p2 := match cb with
              | some f => f p1
              | none => p1
    let (u, db1) := createUser db p2
    let (tok, db2) := generateToken db1 now u "email"
    .ok ⟨u, db2, [.userCreated u tok], match cb with
                                       | some _ => some p1
                                       | none => none⟩
  else .error (.validationFailed errs)

/-- `verify(payload, callback)`: resolve by uid, run the optional pre-check
callback, compare passwords.  Fires no event; the empty event list makes that
observable. -/
def verify (c : Config) (hver : String → String → Bool) (db : DB) (p : Attrs)
    (cb : Option (Account → String → Except PersonaError Unit)) :
    Except PersonaError (Account × List Event) :=
  let errs := validateAll db p (loginRules c)
  if errs.isEmpty then
    match getUserByUids c db ((pget p "uid").getD "") with
    | .error e => .error e
    | .ok user =>
        let entered := (pget p c.password).getD ""
        let stored := (pget user.attrs c.password).getD ""
        let precheck := match cb with
                        | some f => f user entered
                        | none => .ok ()
        match precheck with
        | .error e => .error e
        | .ok _ =>
            match verifyPassword hver entered stored c.password with
            | .error e => .error e
            | .ok _ => .ok (user, [])
  else .error (.validationFailed errs)

/-- `verifyEmail(token)`: redeem a live email token; flip the status to the
verified state only from the new-account state, deleting the token and
persisting; otherwise leave account and token untouched. -/
def verifyEmail (c : Config) (db : DB) (now : Int) (value : Nat) :
    Except PersonaError (Account × DB) :=
  match getToken db now value "email" with
  | none => .error .invalidToken
  | some (_, user) =>
      if pget user.attrs "account_status" == some c.newAccountState then
        let user1 := aset user "account_status" c.verifiedAccountState
        let db1 := removeToken db value "email"
        let db2 := saveUser db1 user1
        .ok (user1, db2)
      else .ok (user, db)

/-- `updateEmail(user, newEmail)`: validate, reset the status to the
new-account state, write the new email, persist, obtain an email token and
fire `email::changed` with the captured old email. -/
def updateEmail (c : Config) (db : DB) (now : Int) (user : Account) (newEmail : String) :
    Except PersonaError (Account × DB × List Event) :=
  let errs := validateAll db [(c.email, newEmail)] (updateEmailRules c user.id)
  if errs.isEmpty then
    let oldEmail := pget user.attrs c.email
    let user1 := aset (aset user "account_status" c.newAccountState) c.email newEmail
    let db1 := saveUser db user1
    let (tok, db2) := generateToken db1 now user1 "email"
    .ok (user1, db2, [.emailChanged user1 oldEmail tok])
  else .error (.validationFailed errs)

/-- `updateProfile(user, payload)`: refuse truthy password values, merge the
payload, and either delegate an email change to `updateEmail` (after
restoring the merged-over old email) or plainly persist. -/
def updateProfile (c : Config) (db : DB) (now : Int) (user : Account) (p : Attrs) :
    Except PersonaError (Account × DB × List Event) :=
  if truthy (pget p c.password) then
    .error (.operationNotAllowed
      "Changing password is not allowed via updateProfile method. Instead use updatePassword")
  else
    let newEmail := pget p c.email
    let oldEmail := pget user.attrs c.email
    let user1 : Account := ⟨user.id, merge user.attrs p⟩
    match newEmail with
    | some ne =>
        if oldEmail != some ne then
          let user2 := asetOpt user1 c.email oldEmail
          updateEmail c db now user2 ne
        else
          .ok (user1, saveUser db user1, [])
    | none => .ok (user1, saveUser db user1, [])

/-- `updatePassword(user, payload)`: validate (old password required, new
password required and confirmed), verify the old password against the stored
hash, then write, persist and fire `password::changed`. -/
def updatePassword (c : Config) (hver : String → String → Bool) (db : DB)
    (user : Account) (p : Attrs) : Except PersonaError (Account × DB × List Event) :=
  let errs := validateAll db p (updatePasswordRules c true)
  if errs.isEmpty then
    let oldPassword := (pget p (oldPasswordField c)).getD ""
    let newPassword := (pget p c.password).getD ""
    let existing := (pget user.attrs c.password).getD ""
    match verifyPassword hver oldPassword existing (oldPasswordField c) with
    | .error e => .error e
    | .ok _ =>
        let user1 := aset user c.password newPassword
        .ok (user1, saveUser db user1, [.passwordChanged user1])
  else .error (.validationFailed errs)

/-- `updatePasswordByToken(token, payload)`: validate (no old-password
requirement), redeem a live password token, write the new password, persist,
delete the token and fire `password::recovered`. -/
def updatePasswordByToken (c : Config) (db : DB) (now : Int) (value : Nat) (p : Attrs) :
    Except PersonaError (Account × DB × List Event) :=
  let errs := validateAll db p (updatePasswordRules c false)
  if errs.isEmpty then
    match getToken db now value "password" with
    | none => .error .invalidToken
    | some (_, user) =>
        let user1 := aset user c.password ((pget p c.password).getD "")
        let db1 := saveUser db user1
        let db2 := removeToken db1 value "password"
        .ok (user1, db2, [.passwordRecovered user1])
  else .error (.validationFailed errs)

/-- `forgotPassword(uid)`: resolve the account, obtain a password token, fire
`forgot::password`. -/
def forgotPassword (c : Config) (db : DB) (now : Int) (uid : String) :
    Except PersonaError (DB × List Event) :=
  match getUserByUids c db uid with
  | .error e => .error e
  | .ok user =>
      let (tok, db1) := generateToken db now user "password"
      .ok (db1, [.forgotPassword user tok])

/-- A live stored token of type `ty` whose value is `value`: not revoked and
last updated at most 24 hours ago. -/
def liveTokenMatch (db : DB) (now : Int) (ty : String) (value : Nat) : Prop :=
  ∃ t ∈ db.tokens,
    t.type = ty ∧ t.is_revoked = false ∧ now - 24 ≤ t.updated_at ∧ t.token = value

/-- A live stored token of type `ty` belonging to account id `uid`. -/
def liveFor (now : Int) (uid : Nat) (ty : String) (t : Token) : Prop :=
  t.userId = uid ∧ t.type = ty ∧ t.is_revoked = false ∧ now - 24 ≤ t.updated_at

/-- Fixture account for concrete checks. -/
def wAccount : Account :=
  ⟨0, [("email", "a@x.com"), ("password", "H:old"), ("account_status", "pending")]⟩

/-- Second fixture account. -/
def wAccount2 : Account :=
  ⟨1, [("email", "b@x.com"), ("password", "H:two"), ("account_status", "active")]⟩

/-- Fixture store: two accounts, a live email token for the first and a live
password token for the second. -/
def wDB : DB :=
  ⟨[wAccount, wAccount2], [⟨0, "email", 5, false, 0⟩, ⟨1, "password", 4, false, 0⟩], 6, 2⟩

/-- Fixture hash comparison: a stored hash is the plaintext tagged `H:`. -/
def wHver (plain hash : String) : Bool := hash == "H:" ++ plain

/-- Store invariants guaranteed by the backing store: token values are the
unique outputs of the fresh supply, every token belongs to an existing
account, and primary keys are unique outputs of the key supply. -/
structure WF (db : DB) : Prop where
  tokenValuesLt : ∀ t ∈ db.tokens, t.token < db.counter
  tokenValuesDistinct : db.tokens.Pairwise (fun a b => a.token ≠ b.token)
  ownerExists : ∀ t ∈ db.tokens, ∃ u ∈ db.users, u.id = t.userId
  userIdsDistinct : db.users.Pairwise (fun a b => a.id ≠ b.id)
  userIdsLt : ∀ u ∈ db.users, u.id < db.userCounter

/-! ### Association-list lemmas -/

theorem pget_cons (kv : String × String) (m : Attrs) (k : String) :
    pget (kv :: m) k = if kv.1 == k then some kv.2 else pget m k := by
  by_cases h : (kv.1 == k) = true
  · simp [pget, List.find?_cons, h]
  · simp [pget, List.find?_cons, h]

theorem find?_map_set_self (k v : String) :
    ∀ m : Attrs, m.any (fun kv => kv.1 == k) = true →
      pget (m.map (fun kv => if kv.1 == k then (k, v) else kv)) k = some v := by
  intro m
  induction m with
  | nil => intro h; simp at h
  | cons kv tl ih =>
      intro h
      by_cases hk : kv.1 = k
      · simp [List.map_cons, hk, pget_cons]
      · simp only [List.any_cons, Bool.or_eq_true, beq_iff_eq] at h
        have h' : tl.any (fun kv => kv.1 == k) = true := by
          rcases h with h | h
          · exact absurd h hk
          · simpa using h
        simpa [List.map_cons, hk, pget_cons] using ih h'

theorem pget_pset_self (m : Attrs) (k v : String) : pget (pset m k v) k = some v := by
  unfold pset
  by_cases h : m.any (fun kv => kv.1 == k) = true
  · simpa [h] using find?_map_set_self k v m h
  · simp only [h, if_false, Bool.false_eq_true]
    have hnone : m.find? (fun kv => kv.1 == k) = none := by
      apply List.find?_eq_none.mpr
      intro x hx hcontra
      exact h (List.any_eq_true.mpr ⟨x, hx, hcontra⟩)
    simp [pget, List.find?_append, hnone, List.find?_cons]

theorem find?_map_set_ne (k v k' : String) (h : k' ≠ k) :
    ∀ m : Attrs,
      pget (m.map (fun kv => if kv.1 == k then (k, v) else kv)) k' = pget m k' := by
  intro m
  induction m with
  | nil => simp
  | cons kv tl ih =>
      by_cases hk : kv.1 = k
      · have hne : ¬ kv.1 = k' := by rw [hk]; exact fun hc => h hc.symm
        have hne2 : ¬ k = k' := fun hc => h hc.symm
        simpa [List.map_cons, hk, pget_cons, hne, hne2] using ih
      · by_cases hx : kv.1 = k'
        · simp [List.map_cons, hk, pget_cons, hx, h]
        · simpa [List.map_cons, hk, pget_cons, hx] using ih

theorem pget_pset_ne (m : Attrs) (k v k' : String) (h : k' ≠ k) :
    pget (pset m k v) k' = pget m k' := by
  have hb2 : ¬ k = k' := fun hc => h hc.symm
  have hkk' : (k == k') = false := beq_eq_false_iff_ne.mpr hb2
  unfold pset
  by_cases hany : m.any (fun kv => kv.1 == k) = true
  · simpa [hany] using find?_map_set_ne k v k' h m
  · simp only [hany, if_false, Bool.false_eq_true]
    simp only [pget, List.find?_append, List.find?_cons]
    cases hf : m.find? (fun kv => kv.1 == k') <;> simp [hf, hkk']

theorem pget_premove_self (m : Attrs) (k : String) : pget (premove m k) k = none := by
  unfold premove pget
  rw [Option.map_eq_none']
  apply List.find?_eq_none.mpr
  intro x hx
  have := List.of_mem_filter hx
  simp only [bne_iff_ne, ne_eq] at this
  simp [this]

theorem pget_premove_ne (m : Attrs) (k k' : String) (h : k' ≠ k) :
    pget (premove m k) k' = pget m k' := by
  induction m with
  | nil => rfl
  | cons kv tl ih =>
      by_cases hk : kv.1 = k
      · have hkk' : ¬ k = k' := fun hc => h hc.symm
        simpa [premove, List.filter_cons, hk, pget_cons, hkk'] using ih
      · by_cases hx : kv.1 = k'
        · simp [premove, List.filter_cons, hk, pget_cons, hx, h]
        · simpa [premove, List.filter_cons, hk, pget_cons, hx] using ih

theorem pget_psetOpt_self (m : Attrs) (k : String) (v : Option String) :
    pget (psetOpt m k v) k = v := by
  cases v <;> simp [psetOpt, pget_pset_self, pget_premove_self]

theorem pget_psetOpt_ne (m : Attrs) (k : String) (v : Option String) (k' : String)
    (h : k' ≠ k) : pget (psetOpt m k v) k' = pget m k' := by
  cases v <;> simp [psetOpt, pget_pset_ne _ _ _ _ h, pget_premove_ne _ _ _ h]

/-! ### Store lemmas -/

/-- In a list whose elements have pairwise-distinct keys, two members with
the same key are the same element. -/
theorem pairwise_key_eq {α β : Type} (f : α → β) :
    ∀ l : List α, l.Pairwise (fun x y => f x ≠ f y) →
      ∀ a ∈ l, ∀ b ∈ l, f a = f b → a = b := by
  intro l hl
  induction hl with
  | nil => intro a ha; exact absurd ha (List.not_mem_nil a)
  | @cons x xs hhead _ ih =>
      intro a ha b hb hf
      rcases List.mem_cons.mp ha with rfl | ha'
      · rcases List.mem_cons.mp hb with rfl | hb'
        · rfl
        · exact absurd hf (hhead b hb')
      · rcases List.mem_cons.mp hb with rfl | hb'
        · exact absurd hf.symm (hhead a ha')
        · exact ih a ha' b hb' hf

/-- The boolean token-query filter, decomposed into the claim's wording. -/
theorem tokenQuery_eq_true (now : Int) (ty : String) (value : Nat) (t : Token) :
    ((t.type == ty && isLive now t && t.token == value) = true) ↔
      (t.type = ty ∧ t.is_revoked = false ∧ now - 24 ≤ t.updated_at ∧ t.token = value) := by
  simp [isLive, Bool.and_eq_true, Bool.not_eq_true', and_assoc]

theorem generateToken_users (db : DB) (now : Int) (u : Account) (ty : String) :
    ((generateToken db now u ty).2).users = db.users := by
  unfold generateToken
  cases h : db.tokens.find? (fun t => t.userId == u.id && t.type == ty && isLive now t) <;>
    simp [h]

theorem saveUser_tokens (db : DB) (u : Account) : (saveUser db u).tokens = db.tokens := rfl

theorem removeToken_users (db : DB) (value : Nat) (ty : String) :
    (removeToken db value ty).users = db.users := rfl

theorem removeToken_removes (db : DB) (value : Nat) (ty : String) :
    ∀ t ∈ (removeToken db value ty).tokens, ¬(t.token = value ∧ t.type = ty) := by
  intro t ht
  have := List.of_mem_filter ht
  intro hc
  simp [hc.1, hc.2] at this

theorem mem_saveUser (db : DB) (u : Account) (u0 : Account) (h0 : u0 ∈ db.users)
    (hid : u0.id = u.id) : u ∈ (saveUser db u).users := by
  unfold saveUser
  simp only [List.mem_map]
  exact ⟨u0, h0, by simp [hid]⟩

theorem saveUser_length (db : DB) (u : Account) :
    (saveUser db u).users.length = db.users.length := by
  simp [saveUser]

/-- When no live token of the requested type matches, `getToken` is absent. -/
theorem getToken_eq_none_of_no_match (db : DB) (now : Int) (value : Nat) (ty : String)
    (h : ∀ t ∈ db.tokens,
      ¬(t.type = ty ∧ t.is_revoked = false ∧ now - 24 ≤ t.updated_at ∧ t.token = value)) :
    getToken db now value ty = none := by
  unfold getToken
  have hnone : db.tokens.find? (fun t => t.type == ty && isLive now t && t.token == value) = none := by
    apply List.find?_eq_none.mpr
    intro t ht hc
    exact h t ht ((tokenQuery_eq_true now ty value t).mp hc)
  simp [hnone]

/-- When the store is referentially consistent, an absent `getToken` means no
live matching token exists. -/
theorem no_match_of_getToken_eq_none (db : DB) (now : Int) (value : Nat) (ty : String)
    (hown : ∀ t ∈ db.tokens, ∃ u ∈ db.users, u.id = t.userId)
    (h : getToken db now value ty = none) :
    ∀ t ∈ db.tokens,
      ¬(t.type = ty ∧ t.is_revoked = false ∧ now - 24 ≤ t.updated_at ∧ t.token = value) := by
  intro t ht hc
  unfold getToken at h
  cases hf : db.tokens.find? (fun t => t.type == ty && isLive now t && t.token == value) with
  | none =>
      have := List.find?_eq_none.mp hf t ht
      exact this ((tokenQuery_eq_true now ty value t).mpr hc)
  | some row =>
      obtain ⟨owner, howner, hoid⟩ := hown row (List.mem_of_find?_eq_some hf)
      have hsome : (db.users.find? (fun u => u.id == row.userId)).isSome = true :=
        List.find?_isSome.mpr ⟨owner, howner, by simp [hoid]⟩
      simp only [hf] at h
      cases hu : db.users.find? (fun u => u.id == row.userId) with
      | none => rw [hu] at hsome; simp at hsome
      | some w => simp [hu] at h

/-- With unique token values and unique account ids, `getToken` resolves a
live matching token to exactly that token and its owner. -/
theorem getToken_finds (db : DB) (now : Int) (value : Nat) (ty : String)
    (hvals : db.tokens.Pairwise (fun a b => a.token ≠ b.token))
    (hids : db.users.Pairwise (fun a b => a.id ≠ b.id))
    (t : Token) (ht : t ∈ db.tokens) (hty : t.type = ty) (hrev : t.is_revoked = false)
    (hupd : now - 24 ≤ t.updated_at) (htok : t.token = value)
    (owner : Account) (howner : owner ∈ db.users) (hoid : owner.id = t.userId) :
    getToken db now value ty = some (t, owner) := by
  unfold getToken
  have hsome : (db.tokens.find? (fun t => t.type == ty && isLive now t && t.token == value)).isSome = true :=
    List.find?_isSome.mpr ⟨t, ht, (tokenQuery_eq_true now ty value t).mpr ⟨hty, hrev, hupd, htok⟩⟩
  cases hf : db.tokens.find? (fun t => t.type == ty && isLive now t && t.token == value) with
  | none => rw [hf] at hsome; simp at hsome
  | some row =>
      have hrow0 : (row.type == ty && isLive now row && row.token == value) = true := by
        have := List.find?_some hf
        simpa using this
      have hrow := (tokenQuery_eq_true now ty value row).mp hrow0
      have hrowt : row = t :=
        pairwise_key_eq Token.token db.tokens hvals row
          (List.mem_of_find?_eq_some hf) t ht (hrow.2.2.2.trans htok.symm)
      subst hrowt
      have husome : (db.users.find? (fun u => u.id == row.userId)).isSome = true :=
        List.find?_isSome.mpr ⟨owner, howner, by simp [hoid]⟩
      cases hu : db.users.find? (fun u => u.id == row.userId) with
      | none => rw [hu] at husome; simp at husome
      | some w =>
          have hw : w.id = row.userId := by simpa using List.find?_some hu
          have hweq : w = owner :=
            pairwise_key_eq Account.id db.users hids w
              (List.mem_of_find?_eq_some hu) owner howner (hw.trans hoid.symm)
          simp [hu, hweq]

/-- The boolean per-user token-query filter, decomposed into `liveFor`. -/
theorem genQuery_eq_true (now : Int) (uid : Nat) (ty : String) (t : Token) :
    ((t.userId == uid && t.type == ty && isLive now t) = true) ↔ liveFor now uid ty t := by
  simp [liveFor, isLive, Bool.and_eq_true, Bool.not_eq_true', and_assoc]

/-- Assigning a fresh key to a rule map appends it. -/
theorem rset_append_of_fresh (m : Rules) (k : String) (v : List VRule)
    (h : ∀ kv ∈ m, kv.1 ≠ k) : rset m k v = m ++ [(k, v)] := by
  cases hany : m.any (fun kv => kv.1 == k) with
  | false => simp [rset, hany]
  | true =>
      obtain ⟨kv, hkv, hc⟩ := List.any_eq_true.mp hany
      exact absurd (by simpa using hc) (h kv hkv)

/-- Folding fresh-key assignments over a rule map appends them in order. -/
theorem foldl_rset_fresh (f : String → List VRule) :
    ∀ (uids : List String) (acc : Rules), uids.Nodup →
      (∀ u ∈ uids, ∀ kv ∈ acc, kv.1 ≠ u) →
      uids.foldl (fun r u => rset r u (f u)) acc = acc ++ uids.map (fun u => (u, f u)) := by
  intro uids
  induction uids with
  | nil => intro acc _ _; simp
  | cons u rest ih =>
      intro acc hnodup hfresh
      have hstep : rset acc u (f u) = acc ++ [(u, f u)] :=
        rset_append_of_fresh acc u (f u)
          (fun kv hkv => hfresh u (List.mem_cons_self u rest) kv hkv)
      have hfresh' : ∀ u' ∈ rest, ∀ kv ∈ acc ++ [(u, f u)], kv.1 ≠ u' := by
        intro u' hu' kv hkv
        rcases List.mem_append.mp hkv with hkv | hkv
        · exact hfresh u' (List.mem_cons_of_mem _ hu') kv hkv
        · have hkveq : kv = (u, f u) := by simpa using hkv
          subst hkveq
          intro hc
          have hc' : u = u' := hc
          exact (List.nodup_cons.mp hnodup).1 (by rw [hc']; exact hu')
      simp only [List.foldl_cons, hstep]
      rw [ih (acc ++ [(u, f u)]) (List.nodup_cons.mp hnodup).2 hfresh']
      simp

/-- With distinct uid fields none of which is the password field, the
registration rule map is the password rule followed by one rule per uid. -/
theorem registrationRules_eq (c : Config) (hnodup : c.uids.Nodup)
    (hpw : c.password ∉ c.uids) :
    registrationRules c =
      (c.password, [VRule.required, VRule.confirmed]) ::
        c.uids.map (fun uid => (uid, uidRules c uid)) := by
  unfold registrationRules
  rw [foldl_rset_fresh (uidRules c) c.uids
    [(c.password, [VRule.required, VRule.confirmed])] hnodup ?_]
  · simp
  · intro u hu kv hkv
    have hkveq : kv = (c.password, [VRule.required, VRule.confirmed]) := by simpa using hkv
    subst hkveq
    intro hc
    have hc' : c.password = u := hc
    exact hpw (by rw [hc']; exact hu)

theorem generateToken_none_case (db : DB) (now : Int) (u : Account) (ty : String)
    (h : db.tokens.find? (fun t => t.userId == u.id && t.type == ty && isLive now t) = none) :
    generateToken db now u ty =
      (db.counter,
       { db with
          tokens := db.tokens ++ [⟨u.id, ty, db.counter, false, now⟩]
          counter := db.counter + 1 }) := by
  simp [generateToken, h]

theorem generateToken_some_case (db : DB) (now : Int) (u : Account) (ty : String)
    (row : Token)
    (h : db.tokens.find? (fun t => t.userId == u.id && t.type == ty && isLive now t) = some row) :
    generateToken db now u ty = (row.token, db) := by
  simp [generateToken, h]

/-- Unfolding `updateEmail` on passing validation. -/
theorem updateEmail_eq (c : Config) (db : DB) (now : Int) (user : Account) (ne : String)
    (hval : validateAll db [(c.email, ne)] (updateEmailRules c user.id) = []) :
    updateEmail c db now user ne =
      (let u' := aset (aset user "account_status" c.newAccountState) c.email ne
       let pr := generateToken (saveUser db u') now u' "email"
       .ok (u', pr.2, [.emailChanged u' (pget user.attrs c.email) pr.1])) := by
  simp [updateEmail, hval]

/-! ### C1: `updateProfile` and the password field -/

/-- **C1** (counterexample): the claim says that any payload *containing* the
password field is rejected by `updateProfile`, but the source only checks JS
truthiness (`if (this._getPassword(payload))`).  A payload with
`password: ""` contains the field, yet the call succeeds, merges the empty
password over the stored one, and persists. -/
theorem updateProfile_password_counterexample :
    (pget [("password", "")] defaultConfig.password).isSome = true ∧
    (updateProfile defaultConfig
        ⟨[⟨0, [("email", "a@x.com"), ("password", "H")]⟩], [], 0, 1⟩ 0
        ⟨0, [("email", "a@x.com"), ("password", "H")]⟩ [("password", "")]).isOk = true ∧
    (updateProfile defaultConfig
        ⟨[⟨0, [("email", "a@x.com"), ("password", "H")]⟩], [], 0, 1⟩ 0
        ⟨0, [("email", "a@x.com"), ("password", "H")]⟩ [("password", "")]).toOption.map
      (fun r => pget r.1.attrs "password") = some (some "") := by
  decide

/-- **C1** (amended): for every account and payload, if the payload contains
a *truthy* (non-empty) password value then `updateProfile` raises
`OperationNotAllowed` before any field is merged and before any persistence
occurs; the error return carries no updated account or store state, so the
account is left unchanged. -/
theorem updateProfile_rejects_password (c : Config) (db : DB) (now : Int)
    (user : Account) (p : Attrs) (h : truthy (pget p c.password) = true) :
    updateProfile c db now user p =
      .error (.operationNotAllowed
        "Changing password is not allowed via updateProfile method. Instead use updatePassword") := by
  simp [updateProfile, h]

/-- **C1** witness: the amended theorem applied at a concrete input. -/
theorem updateProfile_rejects_password_witness :
    updateProfile defaultConfig ⟨[], [], 0, 0⟩ 0 ⟨0, []⟩ [("password", "secret")] =
      .error (.operationNotAllowed
        "Changing password is not allowed via updateProfile method. Instead use updatePassword") :=
  updateProfile_rejects_password defaultConfig ⟨[], [], 0, 0⟩ 0 ⟨0, []⟩
    [("password", "secret")] (by decide)

/-! ### C2: `verifyEmail` -/

/-- **C2**: in a referentially consistent store, `verifyEmail` raises
`InvalidToken` exactly when no live `"email"` token matches the value
(unknown value, wrong type, revoked, or last updated more than 24 hours
ago).  When a live matching token exists and the owning account's status is
`newAccountState`, the status becomes `verifiedAccountState` (all other
attributes untouched), the token is deleted, the account is persisted and
returned.  When the owner is in any other status, the account is returned
with both the status and the store (hence the token) left unchanged. -/
theorem verifyEmail_spec (c : Config) (db : DB) (now : Int) (value : Nat) (hwf : WF db) :
    (verifyEmail c db now value = .error .invalidToken ↔
      ¬ liveTokenMatch db now "email" value)
    ∧ (∀ t ∈ db.tokens, t.type = "email" → t.is_revoked = false →
        now - 24 ≤ t.updated_at → t.token = value →
        ∀ owner ∈ db.users, owner.id = t.userId →
          (pget owner.attrs "account_status" = some c.newAccountState →
            ∃ u' db', verifyEmail c db now value = .ok (u', db')
              ∧ u'.id = owner.id
              ∧ pget u'.attrs "account_status" = some c.verifiedAccountState
              ∧ (∀ k, k ≠ "account_status" → pget u'.attrs k = pget owner.attrs k)
              ∧ (∀ t' ∈ db'.tokens, ¬(t'.token = value ∧ t'.type = "email"))
              ∧ u' ∈ db'.users ∧ db'.users.length = db.users.length)
          ∧ (pget owner.attrs "account_status" ≠ some c.newAccountState →
            verifyEmail c db now value = .ok (owner, db))) := by
  constructor
  · constructor
    · intro herr hlive
      obtain ⟨t, ht, hty, hrev, hupd, htok⟩ := hlive
      obtain ⟨owner, howner, hoid⟩ := hwf.ownerExists t ht
      have hg := getToken_finds db now value "email" hwf.tokenValuesDistinct
        hwf.userIdsDistinct t ht hty hrev hupd htok owner howner hoid
      unfold verifyEmail at herr
      simp only [hg] at herr
      by_cases hst : pget owner.attrs "account_status" = some c.newAccountState
      · simp [hst] at herr
      · simp [hst] at herr
    · intro hnl
      have hnone := getToken_eq_none_of_no_match db now value "email" (by
        intro t ht hc
        exact hnl ⟨t, ht, hc⟩)
      unfold verifyEmail
      rw [hnone]
  · intro t ht hty hrev hupd htok owner howner hoid
    have hg := getToken_finds db now value "email" hwf.tokenValuesDistinct
      hwf.userIdsDistinct t ht hty hrev hupd htok owner howner hoid
    constructor
    · intro hst
      refine ⟨aset owner "account_status" c.verifiedAccountState,
        saveUser (removeToken db value "email")
          (aset owner "account_status" c.verifiedAccountState),
        ?_, rfl, pget_pset_self _ _ _, ?_, ?_, ?_, ?_⟩
      · unfold verifyEmail
        simp only [hg]
        simp [hst]
      · intro k hk
        exact pget_pset_ne _ _ _ _ hk
      · intro t' ht'
        rw [saveUser_tokens] at ht'
        exact removeToken_removes db value "email" t' ht'
      · exact mem_saveUser _ _ owner (by rw [removeToken_users]; exact howner) rfl
      · rw [saveUser_length, removeToken_users]
    · intro hst
      unfold verifyEmail
      simp only [hg]
      simp [hst]

/-- **C2** witness: the theorem applied at a concrete store (a live email
token with value `5` exists in `wDB`). -/
theorem verifyEmail_spec_witness :
    verifyEmail defaultConfig wDB 0 5 = .error .invalidToken ↔
      ¬ liveTokenMatch wDB 0 "email" 5 :=
  (verifyEmail_spec defaultConfig wDB 0 5
    ⟨by decide, by decide, by decide, by decide, by decide⟩).1

/-! ### C3: `generateToken` idempotence and freshness -/

/-- **C3**: `generateToken` is idempotent within the liveness window.  (a) If
a live token of the type already exists for the account (and is the only
one, per the store invariant), the call returns that token's value and
creates nothing.  (b) Two immediately successive calls for the same account
and type return the identical value and the second changes nothing.  (c) In
a well-formed store, calls for two different types or two different accounts
return two distinct values. -/
theorem generateToken_idempotent (db : DB) (now : Int) (u1 : Account) (ty1 : String)
    (u2 : Account) (ty2 : String) (hwf : WF db) :
    (∀ t ∈ db.tokens, liveFor now u1.id ty1 t →
      (∀ t' ∈ db.tokens, liveFor now u1.id ty1 t' → t' = t) →
      generateToken db now u1 ty1 = (t.token, db))
    ∧ generateToken (generateToken db now u1 ty1).2 now u1 ty1 = generateToken db now u1 ty1
    ∧ ((u1.id ≠ u2.id ∨ ty1 ≠ ty2) →
        (generateToken db now u1 ty1).1 ≠
          (generateToken (generateToken db now u1 ty1).2 now u2 ty2).1) := by
  refine ⟨?_, ?_, ?_⟩
  · intro t ht hlf huniq
    have hpred : (t.userId == u1.id && t.type == ty1 && isLive now t) = true :=
      (genQuery_eq_true now u1.id ty1 t).mpr hlf
    have hsome : (db.tokens.find? (fun t => t.userId == u1.id && t.type == ty1 && isLive now t)).isSome = true :=
      List.find?_isSome.mpr ⟨t, ht, hpred⟩
    cases hf : db.tokens.find? (fun t => t.userId == u1.id && t.type == ty1 && isLive now t) with
    | none => rw [hf] at hsome; simp at hsome
    | some row =>
        have hrowp : (row.userId == u1.id && row.type == ty1 && isLive now row) = true := by
          have := List.find?_some hf
          simpa using this
        have hrt : row = t :=
          huniq row (List.mem_of_find?_eq_some hf) ((genQuery_eq_true now u1.id ty1 row).mp hrowp)
        subst hrt
        simp [generateToken, hf]
  · cases hf : db.tokens.find? (fun t => t.userId == u1.id && t.type == ty1 && isLive now t) with
    | some row => simp [generateToken, hf]
    | none =>
        have hnewp : ((⟨u1.id, ty1, db.counter, false, now⟩ : Token).userId == u1.id &&
            (⟨u1.id, ty1, db.counter, false, now⟩ : Token).type == ty1 &&
            isLive now ⟨u1.id, ty1, db.counter, false, now⟩) = true := by
          simp [isLive]
        simp only [generateToken, hf, List.find?_append, List.find?_cons, hnewp,
          Option.none_or]
  · intro hne
    cases hf1 : db.tokens.find? (fun t => t.userId == u1.id && t.type == ty1 && isLive now t) with
    | some r1 =>
        have hr1 := (genQuery_eq_true now u1.id ty1 r1).mp (by
          have := List.find?_some hf1
          simpa using this)
        simp only [generateToken, hf1]
        cases hf2 : db.tokens.find? (fun t => t.userId == u2.id && t.type == ty2 && isLive now t) with
        | some r2 =>
            have hr2 := (genQuery_eq_true now u2.id ty2 r2).mp (by
              have := List.find?_some hf2
              simpa using this)
            simp only [hf2]
            intro hcontra
            have hr12 : r1 = r2 :=
              pairwise_key_eq Token.token db.tokens hwf.tokenValuesDistinct r1
                (List.mem_of_find?_eq_some hf1) r2 (List.mem_of_find?_eq_some hf2) hcontra
            rcases hne with hne | hne
            · exact hne (hr1.1.symm.trans ((hr12 ▸ hr2.1 : r1.userId = u2.id)))
            · exact hne (hr1.2.1.symm.trans ((hr12 ▸ hr2.2.1 : r1.type = ty2)))
        | none =>
            simp only [hf2]
            have hlt := hwf.tokenValuesLt r1 (List.mem_of_find?_eq_some hf1)
            omega
    | none =>
        simp only [generateToken, hf1]
        cases hf2 : (db.tokens ++ [(⟨u1.id, ty1, db.counter, false, now⟩ : Token)]).find?
            (fun t => t.userId == u2.id && t.type == ty2 && isLive now t) with
        | some r2 =>
            have hr2 := (genQuery_eq_true now u2.id ty2 r2).mp (by
              have := List.find?_some hf2
              simpa using this)
            simp only [generateToken, hf2]
            rcases List.mem_append.mp (List.mem_of_find?_eq_some hf2) with hmem | hmem
            · have hlt := hwf.tokenValuesLt r2 hmem
              omega
            · have hr2eq : r2 = ⟨u1.id, ty1, db.counter, false, now⟩ := by
                simpa using hmem
              rcases hne with hne | hne
              · exact absurd (by rw [hr2eq] at hr2; exact hr2.1) hne
              · exact absurd (by rw [hr2eq] at hr2; exact hr2.2.1) hne
        | none =>
            simp only [generateToken, hf2]
            omega

/-- **C3** witness: successive calls at a concrete store (part (b) of the
theorem, with the well-formedness hypothesis discharged concretely). -/
theorem generateToken_idempotent_witness :
    generateToken (generateToken wDB 0 wAccount "email").2 0 wAccount "email" =
      generateToken wDB 0 wAccount "email" :=
  (generateToken_idempotent wDB 0 wAccount "email" wAccount2 "password"
    ⟨by decide, by decide, by decide, by decide, by decide⟩).2.1

/-! ### C4: `updateProfile` email transitions -/

/-- **C4** (counterexample): the claim says a profile update that changes
the email "mints exactly one new email token", but `generateToken` is
idempotent: when the account already holds a live email token (as after
registration), the delegated `updateEmail` reuses it and the token table is
unchanged — zero new tokens are minted. -/
theorem updateProfile_email_counterexample :
    pget wAccount.attrs defaultConfig.email = some "a@x.com" ∧
    liveTokenMatch wDB 0 "email" 5 ∧
    (updateProfile defaultConfig wDB 0 wAccount [("email", "z@x.com")]).isOk = true ∧
    (updateProfile defaultConfig wDB 0 wAccount [("email", "z@x.com")]).toOption.map
      (fun r => r.2.1.tokens) = some wDB.tokens := by
  refine ⟨by decide, ⟨⟨0, "email", 5, false, 0⟩, by decide, by decide⟩, by decide, by decide⟩

/-- **C4** (amended): under a falsy password field, `updateProfile` with an
email value different from the account's current email restores the original
email and delegates to `updateEmail`, which (when the new email validates)
resets the status to `newAccountState`, writes the new email, keeps every
other merged attribute, persists, obtains an `"email"` token through the
idempotent `generateToken` — creating exactly one new token when the account
has no live email token, and reusing the live one (creating none) otherwise —
and fires `email::changed` carrying the correct old email.  If the payload's
email is absent or equal to the current one, the merged account is plainly
saved with no event and no token. -/
theorem updateProfile_email_spec (c : Config) (db : DB) (now : Int) (user : Account)
    (p : Attrs) (hpw : truthy (pget p c.password) = false)
    (hsep : c.email ≠ "account_status") :
    (∀ ne oe, pget p c.email = some ne → pget user.attrs c.email = some oe → oe ≠ ne →
      validateAll db [(c.email, ne)] (updateEmailRules c user.id) = [] →
      ∃ u' tok db',
        updateProfile c db now user p = .ok (u', db', [.emailChanged u' (some oe) tok])
        ∧ u'.id = user.id
        ∧ pget u'.attrs c.email = some ne
        ∧ pget u'.attrs "account_status" = some c.newAccountState
        ∧ (∀ k, k ≠ c.email → k ≠ "account_status" →
            pget u'.attrs k = pget (merge user.attrs p) k)
        ∧ (user ∈ db.users → u' ∈ db'.users)
        ∧ ((∀ t ∈ db.tokens, ¬ liveFor now user.id "email" t) →
            db'.tokens.length = db.tokens.length + 1)
        ∧ ((∃ t ∈ db.tokens, liveFor now user.id "email" t) →
            db'.tokens.length = db.tokens.length))
    ∧ (pget p c.email = none →
        updateProfile c db now user p =
          .ok (⟨user.id, merge user.attrs p⟩, saveUser db ⟨user.id, merge user.attrs p⟩, []))
    ∧ (∀ e, pget p c.email = some e → pget user.attrs c.email = some e →
        updateProfile c db now user p =
          .ok (⟨user.id, merge user.attrs p⟩, saveUser db ⟨user.id, merge user.attrs p⟩, [])) := by
  have hsep' : ("account_status" : String) ≠ c.email := fun h => hsep h.symm
  refine ⟨?_, ?_, ?_⟩
  · intro ne oe hne hoe hdiff hval
    have hbne : (some oe != some ne) = true := by simp [hdiff]
    have hu2 : (asetOpt ⟨user.id, merge user.attrs p⟩ c.email (some oe)).id = user.id := rfl
    have hup : updateProfile c db now user p =
        updateEmail c db now (asetOpt ⟨user.id, merge user.attrs p⟩ c.email (some oe)) ne := by
      simp [updateProfile, hpw, hne, hoe, hbne]
    have hold : pget (asetOpt ⟨user.id, merge user.attrs p⟩ c.email (some oe)).attrs c.email =
        some oe := by
      simp only [asetOpt, psetOpt]
      exact pget_pset_self _ _ _
    rw [hup, updateEmail_eq c db now _ ne (by rw [hu2]; exact hval)]
    simp only [hold]
    refine ⟨_, _, _, rfl, rfl, ?_, ?_, ?_, ?_, ?_, ?_⟩
    · simp only [aset, asetOpt, psetOpt]
      exact pget_pset_self _ _ _
    · simp only [aset, asetOpt, psetOpt]
      rw [pget_pset_ne _ _ _ _ hsep']
      exact pget_pset_self _ _ _
    · intro k hk1 hk2
      simp only [aset, asetOpt, psetOpt]
      rw [pget_pset_ne _ _ _ _ hk1, pget_pset_ne _ _ _ _ hk2]
      exact pget_pset_ne _ _ _ _ hk1
    · intro hu
      rw [generateToken_users]
      exact mem_saveUser _ _ user hu rfl
    · intro hnolive
      have hfind : ((saveUser db (aset (aset (asetOpt ⟨user.id, merge user.attrs p⟩ c.email
          (some oe)) "account_status" c.newAccountState) c.email ne)).tokens).find?
          (fun t => t.userId == (aset (aset (asetOpt ⟨user.id, merge user.attrs p⟩ c.email
            (some oe)) "account_status" c.newAccountState) c.email ne).id &&
            t.type == "email" && isLive now t) = none := by
        rw [saveUser_tokens]
        apply List.find?_eq_none.mpr
        intro t ht hc
        exact hnolive t ht ((genQuery_eq_true now user.id "email" t).mp hc)
      rw [generateToken_none_case _ _ _ _ hfind]
      simp [saveUser_tokens]
    · intro hlive
      obtain ⟨t, ht, hlf⟩ := hlive
      have hsome : (((saveUser db (aset (aset (asetOpt ⟨user.id, merge user.attrs p⟩ c.email
          (some oe)) "account_status" c.newAccountState) c.email ne)).tokens).find?
          (fun t => t.userId == (aset (aset (asetOpt ⟨user.id, merge user.attrs p⟩ c.email
            (some oe)) "account_status" c.newAccountState) c.email ne).id &&
            t.type == "email" && isLive now t)).isSome = true := by
        rw [saveUser_tokens]
        exact List.find?_isSome.mpr ⟨t, ht, (genQuery_eq_true now user.id "email" t).mpr hlf⟩
      cases hf : ((saveUser db (aset (aset (asetOpt ⟨user.id, merge user.attrs p⟩ c.email
          (some oe)) "account_status" c.newAccountState) c.email ne)).tokens).find?
          (fun t => t.userId == (aset (aset (asetOpt ⟨user.id, merge user.attrs p⟩ c.email
            (some oe)) "account_status" c.newAccountState) c.email ne).id &&
            t.type == "email" && isLive now t) with
      | none => rw [hf] at hsome; simp at hsome
      | some row =>
          rw [generateToken_some_case _ _ _ _ row hf]
          simp [saveUser_tokens]
  · intro hnone
    simp [updateProfile, hpw, hnone]
  · intro e hpe hue
    simp [updateProfile, hpw, hpe, hue]

/-- **C4** witness: a concrete profile update changing the email, for an
account with no live email token (one fresh token is minted). -/
theorem updateProfile_email_spec_witness :
    (updateProfile defaultConfig ⟨[wAccount], [], 0, 1⟩ 0 wAccount
      [("email", "z@x.com")]).toOption.map (fun r => r.2.1.tokens.length) = some 1 := by
  obtain ⟨u', tok, db', heq, -, -, -, -, -, hmint, -⟩ :=
    (updateProfile_email_spec defaultConfig ⟨[wAccount], [], 0, 1⟩ 0 wAccount
      [("email", "z@x.com")] (by decide) (by decide)).1
      "z@x.com" "a@x.com" (by decide) (by decide) (by decide) (by decide)
  rw [heq]
  have hm := hmint (by intro t ht; exact absurd ht (List.not_mem_nil t))
  simpa [Except.toOption] using hm

/-! ### C5 and C10: `register` -/

/-- **C5**: for every payload that passes registration validation (in a
well-formed store), `register` creates exactly one account, whose status is
`newAccountState` and from which the confirmation field has been stripped,
mints exactly one fresh `"email"` token for it, fires `user::created` with
that account and token, and returns the account. -/
theorem register_spec (c : Config) (db : DB) (now : Int) (p : Attrs) (hwf : WF db)
    (hval : validateAll db p (registrationRules c) = [])
    (hconf : passwordConfirmationField c ≠ "account_status") :
    ∃ u tok db2,
      register c db now p none = .ok ⟨u, db2, [.userCreated u tok], none⟩
      ∧ pget u.attrs "account_status" = some c.newAccountState
      ∧ pget u.attrs (passwordConfirmationField c) = none
      ∧ db2.users = db.users ++ [u]
      ∧ db2.tokens = db.tokens ++ [⟨u.id, "email", tok, false, now⟩] := by
  have hfind : db.tokens.find?
      (fun t => t.userId == db.userCounter && t.type == "email" && isLive now t) = none := by
    apply List.find?_eq_none.mpr
    intro t ht hc
    simp only [Bool.and_eq_true, beq_iff_eq] at hc
    obtain ⟨owner, howner, hoid⟩ := hwf.ownerExists t ht
    have hlt := hwf.userIdsLt owner howner
    omega
  refine ⟨⟨db.userCounter, massageRegistrationData c p⟩, db.counter,
    ⟨db.users ++ [⟨db.userCounter, massageRegistrationData c p⟩],
     db.tokens ++ [⟨db.userCounter, "email", db.counter, false, now⟩],
     db.counter + 1, db.userCounter + 1⟩, ?_, ?_, ?_, rfl, rfl⟩
  · simp [register, hval, createUser, generateToken, hfind]
  · exact pget_pset_self _ _ _
  · rw [massageRegistrationData, pget_pset_ne _ _ _ _ hconf]
    exact pget_premove_self _ _

/-- **C5** witness: a concrete successful registration. -/
theorem register_spec_witness :
    (register defaultConfig wDB 0
      [("email", "c@x.com"), ("password", "pw"), ("password_confirmation", "pw")]
      none).isOk = true := by
  obtain ⟨u, tok, db2, heq, -⟩ :=
    register_spec defaultConfig wDB 0
      [("email", "c@x.com"), ("password", "pw"), ("password_confirmation", "pw")]
      ⟨by decide, by decide, by decide, by decide, by decide⟩ (by decide) (by decide)
  rw [heq]
  rfl

/-- **C10**: `register` massages the payload after validation — the
confirmation field is deleted and `account_status` is set to
`newAccountState` — and the optional prepare callback is invoked with this
already-massaged payload; the account record that is persisted is built from
the callback's view of that payload. -/
theorem register_callback_spec (c : Config) (db : DB) (now : Int) (p : Attrs)
    (f : Attrs → Attrs) (hval : validateAll db p (registrationRules c) = [])
    (hconf : passwordConfirmationField c ≠ "account_status") :
    ∃ tok db2,
      register c db now p (some f) =
        .ok ⟨⟨db.userCounter, f (massageRegistrationData c p)⟩, db2,
             [.userCreated ⟨db.userCounter, f (massageRegistrationData c p)⟩ tok],
             some (massageRegistrationData c p)⟩
      ∧ pget (massageRegistrationData c p) "account_status" = some c.newAccountState
      ∧ pget (massageRegistrationData c p) (passwordConfirmationField c) = none := by
  cases hg : generateToken
      { db with
          users := db.users ++ [⟨db.userCounter, f (massageRegistrationData c p)⟩]
          userCounter := db.userCounter + 1 } now
      ⟨db.userCounter, f (massageRegistrationData c p)⟩ "email" with
  | mk tok db2 =>
      refine ⟨tok, db2, ?_, pget_pset_self _ _ _, ?_⟩
      · simp [register, hval, createUser, hg]
      · rw [massageRegistrationData, pget_pset_ne _ _ _ _ hconf]
        exact pget_premove_self _ _

/-- **C10** witness: a concrete registration with a prepare callback that
adds an extra field. -/
theorem register_callback_spec_witness :
    (register defaultConfig wDB 0
      [("email", "c@x.com"), ("password", "pw"), ("password_confirmation", "pw")]
      (some (fun q => pset q "role" "member"))).isOk = true := by
  obtain ⟨tok, db2, heq, -⟩ :=
    register_callback_spec defaultConfig wDB 0
      [("email", "c@x.com"), ("password", "pw"), ("password_confirmation", "pw")]
      (fun q => pset q "role" "member") (by decide) (by decide)
  rw [heq]
  rfl

/-! ### C6: `updatePasswordByToken` -/

/-- **C6**: `updatePasswordByToken` first validates the payload against the
no-old-password rule set (the password is required and confirmed), raising
`ValidationFailed` on failure; then, with no live `"password"` token matching
the value, it raises `InvalidToken` with nothing modified; with a live
matching token it writes the payload's password on the owning account,
persists it, deletes the token, fires `password::recovered` and returns the
account. -/
theorem updatePasswordByToken_spec (c : Config) (db : DB) (now : Int) (value : Nat)
    (p : Attrs) (hwf : WF db) :
    updatePasswordRules c false = [(c.password, [VRule.required, VRule.confirmed])]
    ∧ (validateAll db p (updatePasswordRules c false) ≠ [] →
        updatePasswordByToken c db now value p =
          .error (.validationFailed (validateAll db p (updatePasswordRules c false))))
    ∧ (validateAll db p (updatePasswordRules c false) = [] →
        (¬ liveTokenMatch db now "password" value →
          updatePasswordByToken c db now value p = .error .invalidToken)
        ∧ (∀ t ∈ db.tokens, t.type = "password" → t.is_revoked = false →
            now - 24 ≤ t.updated_at → t.token = value →
            ∀ owner ∈ db.users, owner.id = t.userId →
              ∃ u' db',
                updatePasswordByToken c db now value p =
                  .ok (u', db', [.passwordRecovered u'])
                ∧ u'.id = owner.id
                ∧ pget u'.attrs c.password = some ((pget p c.password).getD "")
                ∧ (∀ k, k ≠ c.password → pget u'.attrs k = pget owner.attrs k)
                ∧ (∀ t' ∈ db'.tokens, ¬(t'.token = value ∧ t'.type = "password"))
                ∧ u' ∈ db'.users)) := by
  refine ⟨rfl, ?_, ?_⟩
  · intro hne
    cases herrs : validateAll db p (updatePasswordRules c false) with
    | nil => exact absurd herrs hne
    | cons e es => simp [updatePasswordByToken, herrs]
  · intro hval
    constructor
    · intro hnl
      have hnone := getToken_eq_none_of_no_match db now value "password" (by
        intro t ht hc
        exact hnl ⟨t, ht, hc⟩)
      simp [updatePasswordByToken, hval, hnone]
    · intro t ht hty hrev hupd htok owner howner hoid
      have hg := getToken_finds db now value "password" hwf.tokenValuesDistinct
        hwf.userIdsDistinct t ht hty hrev hupd htok owner howner hoid
      refine ⟨aset owner c.password ((pget p c.password).getD ""),
        removeToken (saveUser db (aset owner c.password ((pget p c.password).getD "")))
          value "password", ?_, rfl, pget_pset_self _ _ _, ?_, ?_, ?_⟩
      · simp [updatePasswordByToken, hval, hg]
      · intro k hk
        exact pget_pset_ne _ _ _ _ hk
      · exact removeToken_removes _ _ _
      · rw [removeToken_users]
        exact mem_saveUser _ _ owner howner rfl

/-- **C6** witness: redeeming the concrete live password token of `wDB`
(value 4, owned by the second account). -/
theorem updatePasswordByToken_spec_witness :
    (updatePasswordByToken defaultConfig wDB 0 4
      [("password", "np"), ("password_confirmation", "np")]).isOk = true := by
  obtain ⟨u', db', heq, -⟩ :=
    ((updatePasswordByToken_spec defaultConfig wDB 0 4
        [("password", "np"), ("password_confirmation", "np")]
        ⟨by decide, by decide, by decide, by decide, by decide⟩).2.2
      (by decide)).2
      ⟨1, "password", 4, false, 0⟩ (by decide) rfl rfl (by decide) rfl
      wAccount2 (by decide) rfl
  rw [heq]
  rfl

/-! ### C7: `updatePassword` -/

/-- **C7**: for a payload passing the password-update validation, if the
supplied old password does not match the account's stored hash,
`updatePassword` raises `ValidationFailed` with the single error tagged
`mis_match` on the old-password field — the error return carries no updated
account, store state or event, so the stored credential is unchanged.  If
the old password matches, it writes the new password (all other attributes
untouched), persists, fires `password::changed` and returns the account. -/
theorem updatePassword_spec (c : Config) (hver : String → String → Bool) (db : DB)
    (user : Account) (p : Attrs)
    (hval : validateAll db p (updatePasswordRules c true) = []) :
    (hver ((pget p (oldPasswordField c)).getD "") ((pget user.attrs c.password).getD "") =
        false →
      updatePassword c hver db user p =
        .error (.validationFailed
          [⟨"Invalid password", oldPasswordField c, "mis_match"⟩]))
    ∧ (hver ((pget p (oldPasswordField c)).getD "") ((pget user.attrs c.password).getD "") =
        true →
      ∃ u',
        updatePassword c hver db user p =
          .ok (u', saveUser db u', [.passwordChanged u'])
        ∧ u'.id = user.id
        ∧ pget u'.attrs c.password = some ((pget p c.password).getD "")
        ∧ (∀ k, k ≠ c.password → pget u'.attrs k = pget user.attrs k)) := by
  constructor
  · intro hmis
    simp [updatePassword, hval, verifyPassword, hmis]
  · intro hok
    refine ⟨aset user c.password ((pget p c.password).getD ""), ?_, rfl,
      pget_pset_self _ _ _, ?_⟩
    · simp [updatePassword, hval, verifyPassword, hok]
    · intro k hk
      exact pget_pset_ne _ _ _ _ hk

/-- **C7** witness: a concrete successful password change (the fixture hash
relation accepts `old` against the stored `H:old`). -/
theorem updatePassword_spec_witness :
    (updatePassword defaultConfig wHver wDB wAccount
      [("old_password", "old"), ("password", "np"), ("password_confirmation", "np")]).isOk =
      true := by
  obtain ⟨u', heq, -⟩ :=
    (updatePassword_spec defaultConfig wHver wDB wAccount
      [("old_password", "old"), ("password", "np"), ("password_confirmation", "np")]
      (by decide)).2 (by decide)
  rw [heq]
  rfl

/-! ### C8: `verify` -/

/-- **C8**: for a validated login payload, `verify` raises
`ValidationFailed` with the single default-message error
`{field: "uid", validation: "exists"}` when no configured uid field of any
account matches `payload.uid`; raises `ValidationFailed` with the single
default-message error `{field: password-field, validation: "mis_match"}`
when an account is resolved but the entered password does not match its
stored hash; and with correct credentials returns the resolved account and
publishes no event. -/
theorem verify_spec (c : Config) (hver : String → String → Bool) (db : DB) (p : Attrs)
    (hval : validateAll db p (loginRules c) = []) :
    ((∀ u ∈ db.users, ∀ uid ∈ c.uids, pget u.attrs uid ≠ some ((pget p "uid").getD "")) →
      verify c hver db p none =
        .error (.validationFailed [⟨"Unable to locate user", "uid", "exists"⟩]))
    ∧ (∀ u0, getUserByUids c db ((pget p "uid").getD "") = .ok u0 →
        (hver ((pget p c.password).getD "") ((pget u0.attrs c.password).getD "") = false →
          verify c hver db p none =
            .error (.validationFailed [⟨"Invalid password", c.password, "mis_match"⟩]))
        ∧ (hver ((pget p c.password).getD "") ((pget u0.attrs c.password).getD "") = true →
          verify c hver db p none = .ok (u0, []))) := by
  constructor
  · intro hnone
    have hfind : db.users.find?
        (fun u => c.uids.any (fun uid => pget u.attrs uid == some ((pget p "uid").getD ""))) =
        none := by
      apply List.find?_eq_none.mpr
      intro u hu hc
      simp only [List.any_eq_true, beq_iff_eq] at hc
      obtain ⟨uid, huid, hcc⟩ := hc
      exact hnone u hu uid huid hcc
    simp [verify, hval, getUserByUids, hfind]
  · intro u0 hu0
    constructor
    · intro hmis
      simp [verify, hval, hu0, verifyPassword, hmis]
    · intro hok
      simp [verify, hval, hu0, verifyPassword, hok]

/-- **C8** witness: a concrete successful login against `wDB`. -/
theorem verify_spec_witness :
    verify defaultConfig wHver wDB [("uid", "a@x.com"), ("password", "old")] none =
      .ok (wAccount, []) :=
  ((verify_spec defaultConfig wHver wDB [("uid", "a@x.com"), ("password", "old")]
    (by decide)).2 wAccount (by rfl)).2 (by decide)

/-! ### C9: `registrationRules` -/

/-- **C9**: for a configuration with N (distinct) uid fields none of which is
the password field, `registrationRules()` has exactly N+1 entries: the
password rule (required and confirmed) whose key comes first, preceding every
uid key, and one rule per uid containing `required` plus a uniqueness
constraint against the configured table, the email-designated uid
additionally containing the email-shape constraint.  Consequently `register`
with a payload missing both the password and the sole uid raises
`ValidationFailed` listing both fields, the password-field error ordered
before the uid-field error. -/
theorem registrationRules_spec (c : Config) (db : DB) (now : Int) (p : Attrs)
    (hnodup : c.uids.Nodup) (hpw : c.password ∉ c.uids) :
    ((registrationRules c).length = c.uids.length + 1
     ∧ (registrationRules c).head? = some (c.password, [VRule.required, VRule.confirmed])
     ∧ ∀ uid ∈ c.uids, ∃ rules, (uid, rules) ∈ registrationRules c
         ∧ VRule.required ∈ rules
         ∧ VRule.unique c.table uid none ∈ rules
         ∧ (uid = c.email → VRule.email ∈ rules))
    ∧ (∀ u, c.uids = [u] → pget p c.password = none → pget p u = none →
        ∃ e1 e2, register c db now p none = .error (.validationFailed [e1, e2])
          ∧ e1.field = c.password ∧ e1.validation = "required"
          ∧ e2.field = u ∧ e2.validation = "required") := by
  refine ⟨⟨?_, ?_, ?_⟩, ?_⟩
  · rw [registrationRules_eq c hnodup hpw]
    simp
  · rw [registrationRules_eq c hnodup hpw]
    rfl
  · intro uid huid
    refine ⟨uidRules c uid, ?_, ?_, ?_, ?_⟩
    · rw [registrationRules_eq c hnodup hpw]
      exact List.mem_cons_of_mem _ (List.mem_map.mpr ⟨uid, huid, rfl⟩)
    · by_cases he : uid = c.email <;> simp [uidRules, he]
    · by_cases he : uid = c.email <;> simp [uidRules, he]
    · intro he
      simp [uidRules, he]
  · intro u huids hp1 hp2
    have hrr : registrationRules c =
        [(c.password, [VRule.required, VRule.confirmed]), (u, uidRules c u)] := by
      rw [registrationRules_eq c hnodup hpw, huids]
      simp
    have herrs : validateAll db p (registrationRules c) =
        [⟨"required validation failed on " ++ c.password, c.password, "required"⟩,
         ⟨"required validation failed on " ++ u, u, "required"⟩] := by
      rw [hrr]
      by_cases he : u = c.email
      · subst he
        simp [validateAll, ruleError, uidRules, hp1, hp2, truthy]
      · simp [validateAll, ruleError, uidRules, he, hp1, hp2, truthy]
    refine ⟨⟨"required validation failed on " ++ c.password, c.password, "required"⟩,
      ⟨"required validation failed on " ++ u, u, "required"⟩, ?_, rfl, rfl, rfl, rfl⟩
    simp [register, herrs]

/-- **C9** witness: registering with an empty payload under the default
configuration fails. -/
theorem registrationRules_spec_witness :
    (register defaultConfig wDB 0 [] none).isOk = false := by
  obtain ⟨e1, e2, heq, -⟩ :=
    (registrationRules_spec defaultConfig wDB 0 [] (by decide) (by decide)).2
      "email" rfl (by decide) (by decide)
  rw [heq]
  rfl

end Persona
